import Mathlib

set_option maxHeartbeats 1000000

/-!
Verification of the BugIt local document store (src/core/storage.py and the
backup-preference path of src/core/config.py), shallowly embedded in Lean.

Python dictionaries become association lists preserving insertion order,
JSON-like Python values become the inductive `JVal`, and the records
directory becomes a flat map from relative path names to file contents.
The repository operations are translated from the source; each embedded
operation models the success path of the advisory lock (the lock machinery
itself is modelled separately by `file_lock_run`).
-/

/-- JSON-like Python values as stored in and read from record files. -/
inductive JVal where
  | null
  | bool (b : Bool)
  | num (n : Int)
  | str (s : String)
  | arr (xs : List JVal)
  | obj (fields : List (String × JVal))

/-- A Python dict with string keys: an association list in insertion order. -/
abbrev Doc := List (String × JVal)

/-- Python truthiness test `not v` (negated): None, False, 0, "", [], {} are falsy. -/
def JVal.isFalsy : JVal → Bool
  | .null => true
  | .bool b => !b
  | .num n => n == 0
  | .str s => s == ""
  | .arr xs => xs.isEmpty
  | .obj fs => fs.isEmpty

/-- Python isinstance(v, str). -/
def JVal.isStr : JVal → Bool
  | .str _ => true
  | _ => false

/-- Python str(v) as used by the f-string that builds record file names.
    Scalars follow Python exactly; composite values never serve as record ids
    in the repository itself and are abstracted by a repr-like tag. -/
def pyStr : JVal → String
  | .null => "None"
  | .bool b => if b then "True" else "False"
  | .num n => toString n
  | .str s => s
  | .arr _ => "[...]"
  | .obj _ => "\x7b...\x7d"

/-- dict lookup d.get(k): first (unique) binding of the key. -/
def Doc.get (d : Doc) (k : String) : Option JVal :=
  match d with
  | [] => none
  | (k', v) :: rest => if k' = k then some v else Doc.get rest k

/-- dict assignment d[k] = v: replaces in place, else appends (insertion order). -/
def Doc.set (d : Doc) (k : String) (v : JVal) : Doc :=
  match d with
  | [] => [(k, v)]
  | (k', v') :: rest => if k' = k then (k', v) :: rest else (k', v') :: Doc.set rest k v

/-- On-disk content of one file in the store. `corrupt` is unparseable bytes,
    `truncated` is a partially written (hence unparseable) document. -/
inductive FileContent where
  | valid (j : JVal)
  | corrupt
  | truncated

/-- The store's directory tree as a flat map from relative path to content. -/
abbrev FS := List (String × FileContent)

def FS.lookup (fs : FS) (name : String) : Option FileContent :=
  match fs with
  | [] => none
  | (k, c) :: rest => if k = name then some c else FS.lookup rest name

def FS.set (fs : FS) (name : String) (c : FileContent) : FS :=
  match fs with
  | [] => [(name, c)]
  | (k, v) :: rest => if k = name then (k, c) :: rest else (k, v) :: FS.set rest name c

def FS.erase (fs : FS) (name : String) : FS :=
  match fs with
  | [] => []
  | (k, v) :: rest => if k = name then FS.erase rest name else (k, v) :: FS.erase rest name

theorem FS.lookup_set_self (fs : FS) (k : String) (c : FileContent) :
    FS.lookup (FS.set fs k c) k = some c := by
  induction fs with
  | nil => simp [FS.set, FS.lookup]
  | cons p rest ih =>
    by_cases h : p.1 = k
    · simp [FS.set, FS.lookup, h]
    · simp [FS.set, FS.lookup, h, ih]

theorem FS.lookup_set_ne (fs : FS) (k k' : String) (c : FileContent) (h : k ≠ k') :
    FS.lookup (FS.set fs k c) k' = FS.lookup fs k' := by
  induction fs with
  | nil => simp [FS.set, FS.lookup, h]
  | cons p rest ih =>
    by_cases hk : p.1 = k
    · simp only [FS.set, hk, if_pos]
      simp [FS.lookup, hk, h]
    · simp only [FS.set, hk, if_neg, ite_false]
      by_cases hk' : p.1 = k'
      · simp [FS.lookup, hk']
      · simp [FS.lookup, hk', ih]

theorem FS.lookup_erase_self (fs : FS) (k : String) :
    FS.lookup (FS.erase fs k) k = none := by
  induction fs with
  | nil => simp [FS.erase, FS.lookup]
  | cons p rest ih =>
    by_cases h : p.1 = k
    · simp [FS.erase, h, ih]
    · simp [FS.erase, FS.lookup, h, ih]

theorem FS.lookup_erase_ne (fs : FS) (k k' : String) (h : k ≠ k') :
    FS.lookup (FS.erase fs k) k' = FS.lookup fs k' := by
  induction fs with
  | nil => simp [FS.erase]
  | cons p rest ih =>
    by_cases hk : p.1 = k
    · have hne : p.1 ≠ k' := by rw [hk]; exact h
      simp [FS.erase, FS.lookup, hk, hne, ih, h]
    · by_cases hk' : p.1 = k'
      · simp [FS.erase, FS.lookup, hk, hk', Ne.symm h]
      · simp [FS.erase, FS.lookup, hk, hk', ih]

theorem Doc.get_set_self (d : Doc) (k : String) (v : JVal) :
    Doc.get (Doc.set d k v) k = some v := by
  induction d with
  | nil => simp [Doc.set, Doc.get]
  | cons p rest ih =>
    by_cases h : p.1 = k
    · simp [Doc.set, Doc.get, h]
    · simp [Doc.set, Doc.get, h, ih]

/-- The distinct failure categories raised by the storage layer. Each
    constructor corresponds to one family of raise sites in storage.py,
    distinguishable there by exception class (StorageError versus its
    subclass ConcurrentAccessError) and message text. -/
inductive StorageErr where
  | invalidIssueId
  | notFound (issueId : String)
  | fileNotFound (path : String)
  | corruptDocument (path : String)
  | invalidStructure (path : String)
  | invalidIndex
  | indexOutOfRange
  | writeFailed (path : String)
  | typeError
  | lockTimeout
  | lockIOFailed
deriving DecidableEq

/-- Kernel-friendly test that pat occurs as a substring (Python `in`). -/
def charsContain (pat : List Char) : List Char → Bool
  | [] => pat.isEmpty
  | c :: rest => pat.isPrefixOf (c :: rest) || charsContain pat rest

def strStarts (s pre0 : String) : Bool := pre0.toList.isPrefixOf s.toList

def strEnds (s suf : String) : Bool := suf.toList.reverse.isPrefixOf s.toList.reverse

def strContains (s pat : String) : Bool := charsContain pat.toList s.toList

/-- Last path component of a relative path. -/
def baseName (name : String) : String :=
  String.mk ((name.toList.reverse.takeWhile (fun c => c ≠ '/')).reverse)

/-- Path.stem for a base name that ends in ".json": drop the final
    extension, except that for the pure dot-file ".json" the suffix is
    empty and the stem is the whole name (pathlib semantics, verified on
    CPython 3.11). -/
def stemOfBase (base : String) : String :=
  if 5 < base.toList.length then String.mk (base.toList.take (base.toList.length - 5))
  else base

/-- Record file path issues_dir / f-string of the id plus ".json". -/
def issuePath (issue_id : JVal) : String := "issues/" ++ pyStr issue_id ++ ".json"

/-- Pre-deletion snapshot path backups / f-string id _ unixtime ".json". -/
def backupPath (issue_id : JVal) (now : Nat) : String :=
  "backups/" ++ pyStr issue_id ++ "_" ++ toString now ++ ".json"

/-! Timestamp parsing. list_issues parses created_at with
    datetime.fromisoformat (after replacing "Z" with "+00:00") and sorts by
    the resulting POSIX timestamp, falling back to 0 on any failure. We model
    the fromisoformat grammar as checked against CPython 3.11: an extended
    (dashed) or basic (8-digit) calendar date, optionally followed by any
    single separator character and a time HH, HH:MM, HH:MM:SS, HHMM or
    HHMMSS, optionally followed by a fractional part introduced by a dot or
    comma (one or more digits, of which the first six are kept as
    microseconds), optionally followed by an offset Z, +-HH, +-HHMM,
    +-HH:MM or +-HH:MM:SS whose total is below 24 hours. Naive results are
    interpreted in a UTC environment; timestamps carry microsecond
    precision (the float seconds of .timestamp() scaled by 10^6, which
    preserves order). -/

def isLeapYear (y : Nat) : Bool := (y % 4 == 0 && y % 100 != 0) || y % 400 == 0

def daysInMonth (y m : Nat) : Nat :=
  match m with
  | 1 => 31
  | 2 => if isLeapYear y then 29 else 28
  | 3 => 31
  | 4 => 30
  | 5 => 31
  | 6 => 30
  | 7 => 31
  | 8 => 31
  | 9 => 30
  | 10 => 31
  | 11 => 30
  | _ => 31

def daysBeforeMonth (y m : Nat) : Nat :=
  (List.range (m - 1)).foldl (fun acc k => acc + daysInMonth y (k + 1)) 0

/-- Days in all years of the interval from a (inclusive) to b (exclusive). -/
def yearSpanDays (a b : Nat) : Nat :=
  (List.range (b - a)).foldl (fun acc k => acc + (if isLeapYear (a + k) then 366 else 365)) 0

/-- Signed day count from 1970-01-01 to the given civil date. -/
def daysSinceEpoch (y m d : Nat) : Int :=
  let doy : Nat := daysBeforeMonth y m + (d - 1)
  if 1970 ≤ y then (yearSpanDays 1970 y : Int) + (doy : Int)
  else -(yearSpanDays y 1970 : Int) + (doy : Int)

def digitVal (c : Char) : Option Nat :=
  if '0' ≤ c ∧ c ≤ '9' then some (c.toNat - 48) else none

def digit2 (a b : Char) : Option Nat :=
  match digitVal a, digitVal b with
  | some x, some y => some (x * 10 + y)
  | _, _ => none

def digit4 (a b c d : Char) : Option Nat :=
  match digit2 a b, digit2 c d with
  | some x, some y => some (x * 100 + y)
  | _, _ => none

/-- Longest prefix of decimal digits and the remainder. -/
def takeDigits : List Char → List Nat × List Char
  | [] => ([], [])
  | c :: rest =>
    match digitVal c with
    | some d =>
      let p := takeDigits rest
      (d :: p.1, p.2)
    | none => ([], c :: rest)

/-- Fractional part after the dot or comma: one or more digits, the first
    six kept as microseconds (CPython truncates longer fractions). -/
def parseFraction (cs : List Char) : Option (Nat × List Char) :=
  let p := takeDigits cs
  if 1 ≤ p.1.length then
    some ((p.1.take 6 ++ List.replicate (6 - p.1.length) 0).foldl
      (fun a d => a * 10 + d) 0, p.2)
  else none

/-- Attach an optional fractional part (sub-second microseconds, which
    CPython allows after the hour, minute or second component alike) to an
    already-parsed seconds-of-day value. -/
def timeAndFrac (secs : Nat) : List Char → Option (Nat × Nat × List Char)
  | [] => some (secs, 0, [])
  | c :: rest =>
    if c = '.' ∨ c = ',' then
      match parseFraction rest with
      | some p => some (secs, p.1, p.2)
      | none => none
    else some (secs, 0, c :: rest)

/-- Calendar date: extended YYYY-MM-DD or basic YYYYMMDD, range-checked the
    way datetime validates (year 1-9999, month 1-12, day within month). -/
def parseDate : List Char → Option (Nat × Nat × Nat × List Char)
  | y1 :: y2 :: y3 :: y4 :: '-' :: m1 :: m2 :: '-' :: d1 :: d2 :: rest =>
    match digit4 y1 y2 y3 y4, digit2 m1 m2, digit2 d1 d2 with
    | some y, some mo, some d =>
      if 1 ≤ y ∧ 1 ≤ mo ∧ mo ≤ 12 ∧ 1 ≤ d ∧ d ≤ daysInMonth y mo
      then some (y, mo, d, rest) else none
    | _, _, _ => none
  | y1 :: y2 :: y3 :: y4 :: m1 :: m2 :: d1 :: d2 :: rest =>
    match digit4 y1 y2 y3 y4, digit2 m1 m2, digit2 d1 d2 with
    | some y, some mo, some d =>
      if 1 ≤ y ∧ 1 ≤ mo ∧ mo ≤ 12 ∧ 1 ≤ d ∧ d ≤ daysInMonth y mo
      then some (y, mo, d, rest) else none
    | _, _, _ => none
  | _ => none

/-- Time of day HH[[:]MM[[:]SS]] with optional fraction, range-checked as
    datetime does (hour 0-23, minute and second 0-59). Returns seconds of
    day, microseconds, and the remainder (a possible offset). -/
def parseTime : List Char → Option (Nat × Nat × List Char)
  | h1 :: h2 :: rest =>
    match digit2 h1 h2 with
    | none => none
    | some hh =>
      if hh ≤ 23 then
        match rest with
        | ':' :: m1 :: m2 :: rest2 =>
          match digit2 m1 m2 with
          | none => none
          | some mm =>
            if mm ≤ 59 then
              match rest2 with
              | ':' :: s1 :: s2 :: rest3 =>
                match digit2 s1 s2 with
                | none => none
                | some ss =>
                  if ss ≤ 59 then timeAndFrac (hh * 3600 + mm * 60 + ss) rest3
                  else none
              | _ => timeAndFrac (hh * 3600 + mm * 60) rest2
            else none
        | m1 :: m2 :: rest2 =>
          match digitVal m1, digitVal m2 with
          | some a, some b =>
            if a * 10 + b ≤ 59 then
              match rest2 with
              | s1 :: s2 :: rest3 =>
                match digitVal s1, digitVal s2 with
                | some x, some y =>
                  if x * 10 + y ≤ 59 then
                    timeAndFrac (hh * 3600 + (a * 10 + b) * 60 + (x * 10 + y)) rest3
                  else none
                | _, _ => timeAndFrac (hh * 3600 + (a * 10 + b) * 60) rest2
              | _ => timeAndFrac (hh * 3600 + (a * 10 + b) * 60) rest2
            else none
          | _, _ => timeAndFrac (hh * 3600) rest
        | _ => timeAndFrac (hh * 3600) rest
      else none
  | _ => none

/-- Offset magnitude after the sign: HH, HHMM, HH:MM or HH:MM:SS, in
    seconds. Components are not individually capped (CPython accepts e.g.
    +05:60); the strictly-below-24-hours bound is checked by parseOffset. -/
def parseOffsetBody : List Char → Option Nat
  | [h1, h2] =>
    match digit2 h1 h2 with
    | some oh => some (oh * 3600)
    | none => none
  | [h1, h2, ':', m1, m2] =>
    match digit2 h1 h2, digit2 m1 m2 with
    | some oh, some om => some (oh * 3600 + om * 60)
    | _, _ => none
  | [h1, h2, m1, m2] =>
    match digit2 h1 h2, digit2 m1 m2 with
    | some oh, some om => some (oh * 3600 + om * 60)
    | _, _ => none
  | [h1, h2, ':', m1, m2, ':', s1, s2] =>
    match digit2 h1 h2, digit2 m1 m2, digit2 s1 s2 with
    | some oh, some om, some os => some (oh * 3600 + om * 60 + os)
    | _, _, _ => none
  | _ => none

/-- A UTC designator or signed offset consuming the whole remainder, in
    signed seconds east of UTC, strictly below 24 hours in magnitude. -/
def parseOffset (cs : List Char) : Option Int :=
  match cs with
  | ['Z'] => some 0
  | ['z'] => some 0
  | sign :: rest =>
    if sign = '+' ∨ sign = '-' then
      match parseOffsetBody rest with
      | some secs =>
        if secs < 86400 then
          some (if sign = '-' then -(secs : Int) else (secs : Int))
        else none
      | none => none
    else none
  | [] => none

/-- datetime.fromisoformat(s) followed by .timestamp(), in microseconds:
    date, then optionally any single separator character and a time, then
    optionally an offset; a naive result is interpreted as UTC (the
    modelled environment), an aware one subtracts its offset. -/
def parseIsoMicros (cs : List Char) : Option Int :=
  match parseDate cs with
  | none => none
  | some (y, mo, d, rest) =>
    let dayUs : Int := daysSinceEpoch y mo d * 86400000000
    match rest with
    | [] => some dayUs
    | _sep :: timeRest =>
      match parseTime timeRest with
      | none => none
      | some (secs, micros, rest2) =>
        let naive : Int := dayUs + (secs : Int) * 1000000 + (micros : Int)
        match rest2 with
        | [] => some naive
        | _ =>
          match parseOffset rest2 with
          | some off => some (naive - off * 1000000)
          | none => none

def parseIsoTimestamp (s : String) : Option Int := parseIsoMicros s.toList

/-- Python created_at.replace("Z", "+00:00"): replace every occurrence of Z. -/
def replaceZ : List Char → List Char
  | [] => []
  | c :: rest =>
    if c = 'Z' then '+' :: '0' :: '0' :: ':' :: '0' :: '0' :: replaceZ rest
    else c :: replaceZ rest

/-- The try/except body of sort_key: non-string created_at raises
    AttributeError at .replace, unparseable strings raise at fromisoformat;
    the bare except turns every failure into timestamp 0. A missing key
    defaults to the epoch string first. -/
def sortTimestamp (d : Doc) : Int :=
  match Doc.get d "created_at" with
  | some (.str s) => (parseIsoTimestamp (String.mk (replaceZ s.toList))).getD 0
  | some _ => 0
  | none => (parseIsoTimestamp "1970-01-01T00:00:00").getD 0

/-- severity_order.get(issue.get("severity", "medium"), 2). -/
def severityRank (d : Doc) : Nat :=
  match Doc.get d "severity" with
  | some (.str s) =>
    if s = "critical" then 0
    else if s = "high" then 1
    else if s = "medium" then 2
    else if s = "low" then 3
    else 2
  | _ => 2

/-- dict.get raises TypeError when its key is unhashable: a severity that is
    a JSON array or object makes sort_key raise. Every other value is
    hashable and simply misses the four severity keys. -/
def severityHashable (d : Doc) : Bool :=
  match Doc.get d "severity" with
  | some (.arr _) => false
  | some (.obj _) => false
  | _ => true

/-- Comparison underlying the sorted order: the Python sort key is the pair
    (severity rank, negated timestamp) compared lexicographically. -/
def keyLe (a b : Doc) : Prop :=
  severityRank a < severityRank b ∨
    (severityRank a = severityRank b ∧ sortTimestamp b ≤ sortTimestamp a)

instance : DecidableRel keyLe := fun a b => by unfold keyLe; exact inferInstance

instance : IsTotal Doc keyLe := ⟨fun a b => by unfold keyLe; omega⟩

instance : IsTrans Doc keyLe := ⟨fun a b c hab hbc => by
  unfold keyLe at hab hbc ⊢
  omega⟩

/-- read_json_file: open and parse with proper error handling. A missing file
    raises the file-not-found StorageError, unparseable bytes (including a
    truncated document) raise the invalid-JSON StorageError, and a payload
    that parses to a non-dict raises the invalid-structure StorageError.
    A parsed dict is returned exactly. -/
def read_json_file (path : String) (fs : FS) : Except StorageErr Doc :=
  match FS.lookup fs path with
  | none => .error (.fileNotFound path)
  | some .corrupt => .error (.corruptDocument path)
  | some .truncated => .error (.corruptDocument path)
  | some (.valid j) =>
    match j with
    | .obj d => .ok d
    | _ => .error (.invalidStructure path)

/-- The test `not data.get("id")` of save_issue: the id key is missing
    (dict.get returns None) or holds a falsy value. -/
def idMissingOrFalsy (data : Doc) : Bool :=
  ((Doc.get data "id").getD JVal.null).isFalsy

/-- save_issue on the lock-success path. uuidStr models str(uuid.uuid4()),
    always a 36-character string, of which the first 6 become the generated
    id. Returns the id handed back to the caller, the caller's dictionary
    after the call (save_issue assigns data["id"] in place when it generates
    an id), and the file system after the atomic write. -/
def save_issue (uuidStr : String) (data : Doc) (fs : FS) : JVal × Doc × FS :=
  if idMissingOrFalsy data then
    let issue_id := JVal.str (uuidStr.take 6)
    let data' := Doc.set data "id" issue_id
    (issue_id, data', FS.set fs (issuePath issue_id) (FileContent.valid (JVal.obj data')))
  else
    let issue_id := (Doc.get data "id").getD JVal.null
    (issue_id, data, FS.set fs (issuePath issue_id) (FileContent.valid (JVal.obj data)))

/-- load_issue. The id guard runs first, then the existence check (before
    the lock), then the read inside the lock. An exception raised inside the
    critical section is re-raised by the file_lock context manager as the
    File-locking-failed StorageError, which is what the caller observes. -/
def load_issue (issue_id : JVal) (fs : FS) : Except StorageErr Doc :=
  if issue_id.isFalsy || !issue_id.isStr then .error .invalidIssueId
  else
    let f := issuePath issue_id
    if (FS.lookup fs f).isNone then .error (.notFound (pyStr issue_id))
    else
      match read_json_file f fs with
      | .error _ => .error .lockIOFailed
      | .ok d => .ok (if (Doc.get d "id").isNone then Doc.set d "id" issue_id else d)

/-- issues_dir.glob("*.json"): files directly inside the issues directory
    whose base name ends in ".json". pathlib's glob does match hidden
    (dot-prefixed) names (verified on CPython 3.11), so those are included
    like any other record file. -/
def globIssues (fs : FS) : List String :=
  (fs.map Prod.fst).filter fun n =>
    strStarts n "issues/" &&
      (let base := String.mk (n.toList.drop 7)
       !(base.toList.contains '/') && strEnds base ".json")

/-- The backfill of list_issues and the read loop body: skip ".lock" and
    ".tmp" names, read each candidate, on success backfill a missing id from
    the file stem, and skip any file whose read failed. -/
def collectIssues (fs : FS) : List Doc :=
  (globIssues fs).filterMap fun name =>
    if strEnds name ".lock" || strContains (baseName name) ".tmp" then none
    else
      match read_json_file name fs with
      | .ok d =>
        some (if (Doc.get d "id").isNone then Doc.set d "id" (JVal.str (stemOfBase (baseName name))) else d)
      | .error _ => none

/-- list_issues: collect the readable documents, then sort by
    (severity rank, negated created_at timestamp). CPython's list.sort
    computes every key before comparing, so an unhashable severity raises
    TypeError out of list_issues before anything is returned; otherwise the
    stable sort (modelled by insertion sort, which is also stable) runs. -/
def list_issues (fs : FS) : Except StorageErr (List Doc) :=
  let issues := collectIssues fs
  if issues.all severityHashable then .ok (List.insertionSort keyLe issues)
  else .error .typeError

/-- get_issue_by_index: 1-based over the freshly computed list_issues. The
    index guard runs before list_issues; the final read is in bounds thanks
    to the two guards (getD's default is unreachable). -/
def get_issue_by_index (i : Int) (fs : FS) : Except StorageErr Doc :=
  if i < 1 then .error .invalidIndex
  else
    match list_issues fs with
    | .error e => .error e
    | .ok issues =>
      if i > issues.length then .error .indexOutOfRange
      else .ok (issues.getD (i - 1).toNat [])

/-- DEFAULT_PREFERENCES of config.py (API keys omitted: they are filtered
    out of preferences and irrelevant to backup_on_delete). -/
def DEFAULT_PREFERENCES : Doc :=
  [("model", .str "gpt-4"), ("enum_mode", .str "auto"), ("output_format", .str "table"),
   ("retry_limit", .num 3), ("default_severity", .str "medium"),
   ("backup_on_delete", .bool true)]

/-- dict.update(file_preferences). -/
def mergeDocs (base upd : Doc) : Doc :=
  upd.foldl (fun acc kv => Doc.set acc kv.1 kv.2) base

/-- get_config_value: load_config starts from DEFAULT_PREFERENCES, updates
    it from .bugitrc when that file exists and parses (bugitrc = none models
    a missing or unparseable file), and config.get(key) returns Python None
    (JVal.null) for a key that is absent after the merge. -/
def get_config_value (bugitrc : Option Doc) (key : String) : JVal :=
  let config :=
    match bugitrc with
    | none => DEFAULT_PREFERENCES
    | some rc => mergeDocs DEFAULT_PREFERENCES rc
  (Doc.get config key).getD JVal.null

/-- The backup decision of delete_issue: get_config_value("backup_on_delete"),
    with None replaced by True for safety, then Python truthiness. -/
def backupSettingOf (bugitrc : Option Doc) : JVal :=
  match get_config_value bugitrc "backup_on_delete" with
  | .null => .bool true
  | v => v

/-- The two file-system states inside delete_issue's critical section for an
    existing record: after the optional shutil.copy2 to the timestamped
    backup path, and after the unlink of the record file. The lookup default
    is unreachable: callers enter only when the record file exists. -/
def delete_issue_steps (bugitrc : Option Doc) (now : Nat) (issue_id : JVal) (fs : FS) :
    FS × FS :=
  let f := issuePath issue_id
  let fs1 :=
    if !(backupSettingOf bugitrc).isFalsy then
      FS.set fs (backupPath issue_id now) ((FS.lookup fs f).getD FileContent.corrupt)
    else fs
  (fs1, FS.erase fs1 f)

/-- delete_issue: id guard, existence check (False, not an error, when the
    record file is absent), then backup-and-unlink inside the lock. -/
def delete_issue (bugitrc : Option Doc) (now : Nat) (issue_id : JVal) (fs : FS) :
    Except StorageErr (Bool × FS) :=
  if issue_id.isFalsy || !issue_id.isStr then .error .invalidIssueId
  else if (FS.lookup fs (issuePath issue_id)).isNone then .ok (false, fs)
  else .ok (true, (delete_issue_steps bugitrc now issue_id fs).2)

/-- The sequence of file-system states traversed by atomic_write_json:
    position 0 the initial state, 1 after tempfile.mkstemp creates the empty
    temp file (an incomplete document), 2 mid-serialization while json.dump
    is writing (still incomplete), 3 after the write is flushed and fsynced
    (the temp file now holds the complete document), 4 after
    Path(temp).replace(path), the single atomic rename that removes the temp
    name and installs the complete document at the target path. -/
def atomic_write_states (fs : FS) (path tmp : String) (data : Doc) : List FS :=
  let doc := FileContent.valid (JVal.obj data)
  let fs1 := FS.set fs tmp FileContent.truncated
  let fs2 := FS.set fs tmp FileContent.truncated
  let fs3 := FS.set fs tmp doc
  let fs4 := FS.set (FS.erase fs3 tmp) path doc
  [fs, fs1, fs2, fs3, fs4]

/-- The except branch of atomic_write_json: a failure at trace position i
    (necessarily before the rename completes) closes the descriptor,
    best-effort unlinks the temp file, and surfaces the write-failed
    StorageError. -/
def atomic_write_cleanup (fs : FS) (path tmp : String) (data : Doc) (i : Nat) :
    FS × StorageErr :=
  (FS.erase ((atomic_write_states fs path tmp data).getD i fs) tmp, .writeFailed path)

/-- The flock retry loop of file_lock: attempt k runs after k sleeps of
    ~100ms, i.e. at about k deciseconds of elapsed time; after a failed
    attempt the loop gives up as soon as the elapsed time exceeds the
    timeout (in deciseconds), else sleeps and retries. Returns the number of
    attempts made and whether the lock was acquired. The fuel argument only
    bounds the recursion; timeoutDs + 2 attempts always suffice to reach the
    give-up condition. -/
def acquireFrom (tryLock : Nat → Bool) (timeoutDs : Nat) : Nat → Nat → Nat × Bool
  | k, 0 => (k, false)
  | k, fuel + 1 =>
    if tryLock k then (k + 1, true)
    else if k > timeoutDs then (k + 1, false)
    else acquireFrom tryLock timeoutDs (k + 1) fuel

def acquireLock (tryLock : Nat → Bool) (timeoutDs : Nat) : Nat × Bool :=
  acquireFrom tryLock timeoutDs 0 (timeoutDs + 2)

/-- Observable outcome of one file_lock-wrapped critical section. -/
structure LockRun (α : Type) where
  result : Except StorageErr α
  attempts : Nat
  heldAfter : Bool
  sidecarAfter : Bool

/-- file_lock (the POSIX branch) around a critical section with outcome
    body. canCreate models whether os.open can create the side-car lock
    file (failure is wrapped into the File-locking-failed StorageError, a
    storage fault distinct from the timeout); tryLock k models whether the
    k-th non-blocking flock attempt succeeds; exhausting the timeout raises
    ConcurrentAccessError. The finally block releases the lock and unlinks
    the side-car on every exit path. An exception raised by the critical
    section is thrown into the generator at the yield, so the except branch
    re-raises it as the File-locking-failed StorageError unless it already
    is a ConcurrentAccessError. -/
def file_lock_run (canCreate : Bool) (tryLock : Nat → Bool) (timeoutDs : Nat)
    (body : Except StorageErr α) : LockRun α :=
  if !canCreate then ⟨.error .lockIOFailed, 0, false, false⟩
  else
    match acquireLock tryLock timeoutDs with
    | (n, false) => ⟨.error .lockTimeout, n, false, false⟩
    | (n, true) =>
      match body with
      | .ok a => ⟨.ok a, n, false, false⟩
      | .error e =>
        ⟨.error (if e = .lockTimeout then e else .lockIOFailed), n, false, false⟩

/-! Concrete fixtures used by witnesses and counterexamples. -/

def docA : Doc :=
  [("id", JVal.str "aaaaaa"), ("severity", JVal.str "critical"),
   ("created_at", JVal.str "2025-01-02T10:00:00")]

def rA : Doc :=
  [("id", JVal.str "a"), ("severity", JVal.str "medium"),
   ("created_at", JVal.str "1969-12-31T23:00:00")]

def rB : Doc :=
  [("id", JVal.str "b"), ("severity", JVal.str "medium"),
   ("created_at", JVal.str "not-a-date")]

def u36 : String := "0123456789abcdef0123456789abcdef0123"

def fsR : FS :=
  [("issues/a.json", .corrupt), ("issues/b.json", .valid (.num 3)),
   ("issues/c.json", .valid (.obj docA))]

/-- C9: read_document(path) fails NotFound when the file does not exist,
    CorruptDocument when its content is unparseable (including truncated
    bytes), InvalidStructure when the content parses to a non-map payload,
    and on success returns the parsed map exactly — it never coerces bad
    input to a default. -/
theorem C9_read_document_contract (path : String) (fs : FS) :
    (FS.lookup fs path = none →
        read_json_file path fs = .error (.fileNotFound path)) ∧
    (FS.lookup fs path = some .corrupt →
        read_json_file path fs = .error (.corruptDocument path)) ∧
    (FS.lookup fs path = some .truncated →
        read_json_file path fs = .error (.corruptDocument path)) ∧
    (∀ j, FS.lookup fs path = some (.valid j) →
      (∀ d, j = .obj d → read_json_file path fs = .ok d) ∧
      ((∀ d, j ≠ .obj d) → read_json_file path fs = .error (.invalidStructure path))) := by
  refine ⟨fun h => ?_, fun h => ?_, fun h => ?_, fun j h => ⟨fun d hd => ?_, fun hnd => ?_⟩⟩
  · simp [read_json_file, h]
  · simp [read_json_file, h]
  · simp [read_json_file, h]
  · subst hd; simp [read_json_file, h]
  · cases j with
    | obj d => exact absurd rfl (hnd d)
    | null => simp [read_json_file, h]
    | bool b => simp [read_json_file, h]
    | num n => simp [read_json_file, h]
    | str s => simp [read_json_file, h]
    | arr xs => simp [read_json_file, h]

/-- Witness for C9 at a concrete store: a missing file, a corrupt file, a
    non-map file and a well-formed record. -/
theorem C9_witness :
    read_json_file "issues/missing.json" fsR = .error (.fileNotFound "issues/missing.json") ∧
    read_json_file "issues/a.json" fsR = .error (.corruptDocument "issues/a.json") ∧
    read_json_file "issues/b.json" fsR = .error (.invalidStructure "issues/b.json") ∧
    read_json_file "issues/c.json" fsR = .ok docA :=
  ⟨(C9_read_document_contract "issues/missing.json" fsR).1 rfl,
   (C9_read_document_contract "issues/a.json" fsR).2.1 rfl,
   ((C9_read_document_contract "issues/b.json" fsR).2.2.2 (.num 3) rfl).2
     (fun _ h => JVal.noConfusion h),
   ((C9_read_document_contract "issues/c.json" fsR).2.2.2 (.obj docA) rfl).1 docA rfl⟩

/-- C2: throughout atomic_write(path, document) the content at path is
    either the previous content (absent if none existed) or the new
    complete document; before the rename (trace positions 0 to 3) it is
    exactly the previous content, after the rename it is the new document;
    and a failure at any point before the rename, followed by the handler's
    cleanup, leaves path unchanged, removes the temp file, and surfaces
    WriteFailed. -/
theorem C2_atomic_write_invariant (fs : FS) (path tmp : String) (data : Doc)
    (hne : tmp ≠ path) :
    (∀ s ∈ atomic_write_states fs path tmp data,
        FS.lookup s path = FS.lookup fs path ∨
        FS.lookup s path = some (FileContent.valid (JVal.obj data))) ∧
    (∀ i, i < 4 → ∀ s, (atomic_write_states fs path tmp data)[i]? = some s →
        FS.lookup s path = FS.lookup fs path) ∧
    (∀ s, (atomic_write_states fs path tmp data)[4]? = some s →
        FS.lookup s path = some (FileContent.valid (JVal.obj data))) ∧
    (∀ i, i < 4 →
        FS.lookup (atomic_write_cleanup fs path tmp data i).1 path = FS.lookup fs path ∧
        FS.lookup (atomic_write_cleanup fs path tmp data i).1 tmp = none ∧
        (atomic_write_cleanup fs path tmp data i).2 = .writeFailed path) := by
  have hset : ∀ c, FS.lookup (FS.set fs tmp c) path = FS.lookup fs path :=
    fun c => FS.lookup_set_ne fs tmp path c hne
  have hfinal :
      FS.lookup (FS.set (FS.erase (FS.set fs tmp (FileContent.valid (JVal.obj data))) tmp) path
        (FileContent.valid (JVal.obj data))) path = some (FileContent.valid (JVal.obj data)) :=
    FS.lookup_set_self _ _ _
  refine ⟨?_, ?_, ?_, ?_⟩
  · intro s hs
    simp only [atomic_write_states, List.mem_cons, List.mem_singleton] at hs
    rcases hs with h | h | h | h | h | h
    · left; rw [h]
    · left; rw [h]; exact hset _
    · left; rw [h]; exact hset _
    · left; rw [h]; exact hset _
    · right; rw [h]; exact hfinal
    · cases h
  · intro i hi s hs
    interval_cases i <;>
      simp only [atomic_write_states, List.getElem?_cons_zero, List.getElem?_cons_succ,
        Option.some_inj] at hs <;> rw [← hs]
    · exact hset _
    · exact hset _
    · exact hset _
  · intro s hs
    simp only [atomic_write_states, List.getElem?_cons_zero, List.getElem?_cons_succ,
      Option.some_inj] at hs
    rw [← hs]; exact hfinal
  · intro i hi
    refine ⟨?_, ?_, rfl⟩ <;> interval_cases i
    · exact FS.lookup_erase_ne fs tmp path hne
    · exact (FS.lookup_erase_ne _ tmp path hne).trans (hset _)
    · exact (FS.lookup_erase_ne _ tmp path hne).trans (hset _)
    · exact (FS.lookup_erase_ne _ tmp path hne).trans (hset _)
    · exact FS.lookup_erase_self fs tmp
    · exact FS.lookup_erase_self _ tmp
    · exact FS.lookup_erase_self _ tmp
    · exact FS.lookup_erase_self _ tmp

def dW2 : Doc := [("id", JVal.str "w"), ("title", JVal.str "atomic")]

/-- Witness for C2 at a concrete target path and temp name: the cleanup
    after a mid-serialization failure leaves the target untouched and no
    temp file behind. -/
theorem C2_witness :
    FS.lookup (atomic_write_cleanup [] "issues/w.json" ".w.json.abc.tmp" dW2 2).1
        "issues/w.json" = FS.lookup ([] : FS) "issues/w.json" ∧
    FS.lookup (atomic_write_cleanup [] "issues/w.json" ".w.json.abc.tmp" dW2 2).1
        ".w.json.abc.tmp" = none ∧
    (∀ s, (atomic_write_states [] "issues/w.json" ".w.json.abc.tmp" dW2)[4]? = some s →
        FS.lookup s "issues/w.json" = some (FileContent.valid (JVal.obj dW2))) := by
  have h := C2_atomic_write_invariant [] "issues/w.json" ".w.json.abc.tmp" dW2 (by decide)
  exact ⟨(h.2.2.2 2 (by decide)).1, (h.2.2.2 2 (by decide)).2.1, h.2.2.1⟩

/-- With a side-car that can be created but a lock that is always busy, the
    retry loop makes one attempt per ~100ms step until the elapsed time
    exceeds the timeout: timeoutDs + 2 attempts in total, never acquiring. -/
theorem acquireFrom_always_busy (T : Nat) :
    ∀ fuel k, k + fuel = T + 2 → acquireFrom (fun _ => false) T k fuel = (T + 2, false) := by
  intro fuel
  induction fuel with
  | zero =>
    intro k hk
    simp only [acquireFrom]
    have h : k = T + 2 := by omega
    rw [h]
  | succ n ih =>
    intro k hk
    simp only [acquireFrom, Bool.false_eq_true, if_false]
    by_cases h : k > T
    · rw [if_pos h]
      have h2 : k + 1 = T + 2 := by omega
      rw [h2]
    · rw [if_neg h]; exact ih (k + 1) (by omega)

/-- C8: lock acquisition retries the non-blocking flock in ~100ms steps
    until the timeout elapses and then fails with the ConcurrentAccessError
    timeout (lockTimeout), a category distinct from the storage fault
    raised when the side-car lock file cannot be created (lockIOFailed);
    on successful acquisition the critical section's outcome is surfaced
    (exceptions re-raised through the context manager) and on every exit
    path — side-car creation failure, timeout, normal return, or a throwing
    critical section — the lock is not held afterwards and the side-car is
    removed. -/
theorem C8_lock_contract (α : Type) (T : Nat) :
    (∀ (tl : Nat → Bool) (body : Except StorageErr α),
        file_lock_run false tl T body = ⟨.error .lockIOFailed, 0, false, false⟩) ∧
    (∀ body : Except StorageErr α,
        file_lock_run true (fun _ => false) T body = ⟨.error .lockTimeout, T + 2, false, false⟩) ∧
    (StorageErr.lockTimeout ≠ StorageErr.lockIOFailed) ∧
    (∀ a : α, file_lock_run true (fun _ => true) T (.ok a) = ⟨.ok a, 1, false, false⟩) ∧
    (∀ e, e ≠ StorageErr.lockTimeout →
        file_lock_run true (fun _ => true) T (.error e : Except StorageErr α) =
          ⟨.error .lockIOFailed, 1, false, false⟩) ∧
    (∀ (cc : Bool) (tl : Nat → Bool) (body : Except StorageErr α),
        (file_lock_run cc tl T body).heldAfter = false ∧
        (file_lock_run cc tl T body).sidecarAfter = false) := by
  have hbusy : acquireLock (fun _ => false) T = (T + 2, false) :=
    acquireFrom_always_busy T (T + 2) 0 (by omega)
  have hfree : acquireLock (fun _ => true) T = (1, true) := by
    rw [acquireLock, show T + 2 = (T + 1) + 1 from rfl]
    simp [acquireFrom]
  refine ⟨fun tl body => rfl, fun body => ?_, by decide, fun a => ?_, fun e he => ?_, ?_⟩
  · simp [file_lock_run, hbusy]
  · simp [file_lock_run, hfree]
  · simp [file_lock_run, hfree, he]
  · intro cc tl body
    cases cc
    · exact ⟨rfl, rfl⟩
    · simp only [file_lock_run, Bool.not_true, Bool.false_eq_true, if_false]
      rcases h : acquireLock tl T with ⟨n, b⟩
      cases b
      · exact ⟨rfl, rfl⟩
      · cases body
        · exact ⟨rfl, rfl⟩
        · exact ⟨rfl, rfl⟩

/-- Witness for C8 at timeout 3 deciseconds: a throwing critical section is
    surfaced as the wrapped storage fault, and a busy lock times out after
    5 attempts. -/
theorem C8_witness :
    file_lock_run true (fun _ => true) 3
        (.error (.corruptDocument "issues/a.json") : Except StorageErr Nat) =
      ⟨.error .lockIOFailed, 1, false, false⟩ ∧
    file_lock_run true (fun _ => false) 3 (.ok 0 : Except StorageErr Nat) =
      ⟨.error .lockTimeout, 5, false, false⟩ :=
  ⟨(C8_lock_contract Nat 3).2.2.2.2.1 _ (by decide), (C8_lock_contract Nat 3).2.1 _⟩

/-- C5: get_by_index is 1-based over the current list(): every index below 1
    fails InvalidIndex (the guard runs before the listing), every index
    beyond the listing's length fails IndexOutOfRange, and index 1 on a
    non-empty listing returns the first element of list(). -/
theorem C5_index_bounds (i : Int) (fs : FS) (l : List Doc)
    (hl : list_issues fs = .ok l) :
    (i < 1 → get_issue_by_index i fs = .error .invalidIndex) ∧
    ((l.length : Int) < i → get_issue_by_index i fs = .error .indexOutOfRange) ∧
    (∀ d rest, l = d :: rest → get_issue_by_index 1 fs = .ok d) := by
  refine ⟨fun h => ?_, fun h => ?_, fun d rest hdr => ?_⟩
  · simp [get_issue_by_index, h]
  · have h1 : ¬ i < 1 := by omega
    simp only [get_issue_by_index, hl, if_neg h1]
    rw [if_pos h]
  · subst hdr
    simp only [get_issue_by_index, hl, if_neg (by omega : ¬ (1 : Int) < 1)]
    have hlen : ¬ (1 : Int) > (((d :: rest).length : Nat) : Int) := by
      simp only [List.length_cons]
      omega
    rw [if_neg hlen]
    simp [List.getD]

def fsW5 : FS := [("issues/aaaaaa.json", .valid (.obj docA))]

/-- Witness for C5 on a one-record store: indices 0 and -1 fail
    InvalidIndex, index 2 fails IndexOutOfRange, index 1 returns the first
    listed record. -/
theorem C5_witness :
    get_issue_by_index 0 fsW5 = .error .invalidIndex ∧
    get_issue_by_index (-1) fsW5 = .error .invalidIndex ∧
    get_issue_by_index 2 fsW5 = .error .indexOutOfRange ∧
    get_issue_by_index 1 fsW5 = .ok docA :=
  ⟨(C5_index_bounds 0 fsW5 [docA] rfl).1 (by decide),
   (C5_index_bounds (-1) fsW5 [docA] rfl).1 (by decide),
   (C5_index_bounds 2 fsW5 [docA] rfl).2.1 (by decide),
   (C5_index_bounds 1 fsW5 [docA] rfl).2.2 docA [] rfl⟩

theorem take6_length (u : String) (hu : u.length = 36) : (u.take 6).length = 6 := by
  have hd : u.data.length = 36 := hu
  rw [String.take_eq]
  show (u.data.take 6).length = 6
  rw [List.length_take, hd]
  omega

theorem take6_ne_empty (u : String) (hu : u.length = 36) : u.take 6 ≠ "" := by
  intro h
  have h6 := take6_length u hu
  rw [h] at h6
  exact absurd h6 (by decide)

/-- C10: save mutates its argument in place. When the argument's id key is
    missing or falsy, save assigns the generated 6-character id into the
    caller's dictionary (and returns that id); when the id is non-falsy the
    dictionary comes back unmodified. -/
theorem C10_save_mutates (u : String) (data : Doc) (fs : FS) (hu : u.length = 36) :
    (idMissingOrFalsy data = true →
        (save_issue u data fs).2.1 = Doc.set data "id" (JVal.str (u.take 6)) ∧
        (save_issue u data fs).1 = JVal.str (u.take 6) ∧
        (u.take 6).length = 6) ∧
    (idMissingOrFalsy data = false → (save_issue u data fs).2.1 = data) := by
  refine ⟨fun hb => ?_, fun hb => ?_⟩
  · exact ⟨by simp [save_issue, hb], by simp [save_issue, hb], take6_length u hu⟩
  · simp [save_issue, hb]

def dEmptyId : Doc := [("id", JVal.str ""), ("title", JVal.str "t")]

/-- Witness for C10: a falsy (empty-string) id is overwritten in the
    caller's dictionary with the generated 6-character id; a document with a
    non-falsy id comes back untouched. -/
theorem C10_witness :
    (save_issue u36 dEmptyId []).2.1 = Doc.set dEmptyId "id" (JVal.str (u36.take 6)) ∧
    (save_issue u36 dEmptyId []).1 = JVal.str (u36.take 6) ∧
    (u36.take 6).length = 6 ∧
    (save_issue u36 docA []).2.1 = docA := by
  have h1 := (C10_save_mutates u36 dEmptyId [] (by decide)).1 (by decide)
  have h2 := (C10_save_mutates u36 docA [] (by decide)).2 (by decide)
  exact ⟨h1.1, h1.2.1, h1.2.2, h2⟩

/-- C1 (amended): for every document whose id field, when present, is a
    string or a falsy value, load(save(d)) succeeds and returns exactly the
    document save wrote: d itself when its id was a non-falsy string, and d
    with the generated id assigned when the id was missing or falsy. -/
theorem C1_roundtrip (u : String) (data : Doc) (fs : FS) (hu : u.length = 36)
    (hid : ∀ v, Doc.get data "id" = some v → v.isFalsy = true ∨ v.isStr = true) :
    load_issue (save_issue u data fs).1 (save_issue u data fs).2.2 =
      .ok (save_issue u data fs).2.1 ∧
    (idMissingOrFalsy data = true →
        (save_issue u data fs).2.1 = Doc.set data "id" (JVal.str (u.take 6))) ∧
    (idMissingOrFalsy data = false → (save_issue u data fs).2.1 = data) := by
  by_cases hb : idMissingOrFalsy data = true
  · have hne : u.take 6 ≠ "" := take6_ne_empty u hu
    have hfal : (JVal.str (u.take 6)).isFalsy = false := by
      rw [show (JVal.str (u.take 6)).isFalsy = (u.take 6 == "") from rfl,
        beq_eq_false_iff_ne]
      exact hne
    have hsave : save_issue u data fs =
        (JVal.str (u.take 6), Doc.set data "id" (JVal.str (u.take 6)),
         FS.set fs (issuePath (JVal.str (u.take 6)))
           (FileContent.valid (JVal.obj (Doc.set data "id" (JVal.str (u.take 6)))))) := by
      simp [save_issue, hb]
    rw [hsave]
    refine ⟨?_, fun _ => rfl, fun hfalse => absurd hb (by simp [hfalse])⟩
    simp [load_issue, read_json_file, hfal, JVal.isStr, FS.lookup_set_self,
      Doc.get_set_self]
  · have hb' : idMissingOrFalsy data = false := by
      cases h : idMissingOrFalsy data
      · rfl
      · exact absurd h hb
    obtain ⟨v, hv⟩ : ∃ v, Doc.get data "id" = some v := by
      cases h : Doc.get data "id" with
      | none =>
        exfalso
        apply hb
        rw [idMissingOrFalsy, h]
        rfl
      | some v => exact ⟨v, rfl⟩
    have hvf : v.isFalsy = false := by
      have := hb'
      rw [idMissingOrFalsy, hv] at this
      exact this
    obtain ⟨s, hvs⟩ : ∃ s, v = JVal.str s := by
      rcases hid v hv with h | h
      · rw [hvf] at h; exact absurd h (by decide)
      · cases v <;> simp [JVal.isStr] at h
        exact ⟨_, rfl⟩
    have hsave : save_issue u data fs =
        (v, data, FS.set fs (issuePath v) (FileContent.valid (JVal.obj data))) := by
      simp [save_issue, hb', hv]
    rw [hsave]
    refine ⟨?_, fun htrue => absurd htrue hb, fun _ => rfl⟩
    subst hvs
    simp [load_issue, read_json_file, hvf, JVal.isStr, FS.lookup_set_self, hv]

def dNoId : Doc := [("title", JVal.str "t")]

/-- Witness for C1 on a document with no id: save assigns the generated id
    and load returns the saved document. -/
theorem C1_witness :
    load_issue (save_issue u36 dNoId []).1 (save_issue u36 dNoId []).2.2 =
      .ok (save_issue u36 dNoId []).2.1 ∧
    (save_issue u36 dNoId []).2.1 = Doc.set dNoId "id" (JVal.str (u36.take 6)) := by
  have h := C1_roundtrip u36 dNoId [] (by decide)
    (fun v hv => by rw [show Doc.get dNoId "id" = none from rfl] at hv; cases hv)
  exact ⟨h.1, h.2.1 rfl⟩

def dBadId : Doc := [("id", JVal.num 1), ("title", JVal.str "t")]

/-- Counterexample to C1 as stated: the keyed map with the non-string,
    non-falsy id 1 is acceptable to save (save writes it and returns the id
    unchanged), yet load applied to the id save returned rejects it, so the
    round-trip does not return the document. -/
theorem C1_counterexample :
    (save_issue u36 dBadId []).1 = JVal.num 1 ∧
    (save_issue u36 dBadId []).2.2 =
      [("issues/1.json", FileContent.valid (JVal.obj dBadId))] ∧
    load_issue (save_issue u36 dBadId []).1 (save_issue u36 dBadId []).2.2 =
      .error .invalidIssueId :=
  ⟨rfl, rfl, rfl⟩

theorem issuePath_head (a : JVal) : (issuePath a).data.head? = some 'i' := by
  rw [issuePath, String.data_append, String.data_append]
  rfl

theorem backupPath_head (a : JVal) (n : Nat) :
    (backupPath a n).data.head? = some 'b' := by
  rw [backupPath, String.data_append, String.data_append, String.data_append]
  rfl

theorem backupPath_ne_issuePath (a b : JVal) (n : Nat) :
    backupPath a n ≠ issuePath b := by
  intro h
  have h1 := congrArg (fun s => s.data.head?) h
  simp only at h1
  rw [backupPath_head, issuePath_head] at h1
  exact absurd h1 (by decide)

/-- C6 (amended): for every non-empty string id, delete returns false (not
    an error) when the record file is absent, and returns true exactly when
    it existed and was removed: afterwards the file is gone, load fails
    NotFound, and a second delete returns false. (A falsy or non-string id
    is rejected by the guard instead of returning false; see the
    counterexample.) -/
theorem C6_delete_contract (rc : Option Doc) (now : Nat) (s : String) (fs : FS)
    (hs : s ≠ "") :
    ((FS.lookup fs (issuePath (JVal.str s))).isNone = true →
        delete_issue rc now (JVal.str s) fs = .ok (false, fs)) ∧
    (∀ c, FS.lookup fs (issuePath (JVal.str s)) = some c →
        delete_issue rc now (JVal.str s) fs =
          .ok (true, (delete_issue_steps rc now (JVal.str s) fs).2) ∧
        FS.lookup (delete_issue_steps rc now (JVal.str s) fs).2
          (issuePath (JVal.str s)) = none ∧
        load_issue (JVal.str s) (delete_issue_steps rc now (JVal.str s) fs).2 =
          .error (.notFound s) ∧
        delete_issue rc now (JVal.str s) (delete_issue_steps rc now (JVal.str s) fs).2 =
          .ok (false, (delete_issue_steps rc now (JVal.str s) fs).2)) := by
  have hfal : (JVal.str s).isFalsy = false := by
    rw [show (JVal.str s).isFalsy = (s == "") from rfl, beq_eq_false_iff_ne]
    exact hs
  refine ⟨fun h => ?_, fun c hc => ?_⟩
  · simp [delete_issue, hfal, JVal.isStr, h]
  · have hnone : FS.lookup (delete_issue_steps rc now (JVal.str s) fs).2
        (issuePath (JVal.str s)) = none := FS.lookup_erase_self _ _
    refine ⟨by simp [delete_issue, hfal, JVal.isStr, hc], hnone, ?_, ?_⟩
    · simp [load_issue, hfal, JVal.isStr, hnone, pyStr]
    · simp [delete_issue, hfal, JVal.isStr, hnone]

/-- Counterexample to C6 as stated: for the empty-string id (for which no
    record file exists) delete raises the invalid-id StorageError instead of
    returning false. -/
theorem C6_counterexample :
    delete_issue none 0 (JVal.str "") [] = .error .invalidIssueId ∧
    FS.lookup [] (issuePath (JVal.str "")) = none :=
  ⟨rfl, rfl⟩

def fsD : FS := [("issues/aaaaaa.json", .valid (.obj rA))]

/-- Witness for C6 on a one-record store: delete returns true, the record
    file is gone, load fails NotFound, and a second delete returns false. -/
theorem C6_witness :
    delete_issue none 5 (JVal.str "aaaaaa") fsD =
      .ok (true, (delete_issue_steps none 5 (JVal.str "aaaaaa") fsD).2) ∧
    FS.lookup (delete_issue_steps none 5 (JVal.str "aaaaaa") fsD).2
      (issuePath (JVal.str "aaaaaa")) = none ∧
    load_issue (JVal.str "aaaaaa") (delete_issue_steps none 5 (JVal.str "aaaaaa") fsD).2 =
      .error (.notFound "aaaaaa") ∧
    delete_issue none 5 (JVal.str "aaaaaa") (delete_issue_steps none 5 (JVal.str "aaaaaa") fsD).2 =
      .ok (false, (delete_issue_steps none 5 (JVal.str "aaaaaa") fsD).2) :=
  (C6_delete_contract none 5 "aaaaaa" fsD (by decide)).2
    (FileContent.valid (JVal.obj rA)) rfl

/-- C7: when backup_on_delete is enabled — in particular when the
    configuration key is unset, which defaults to enabled — delete on an
    existing record first copies the record's current content to the
    timestamped backup path (at that intermediate point the record file is
    still present and the backup deep-equals it), and only then removes the
    record file; afterwards the backup still holds exactly the content the
    record had immediately before deletion. -/
theorem C7_backup_fidelity (rc : Option Doc) (now : Nat) (s : String) (fs : FS)
    (c : FileContent) (hs : s ≠ "")
    (hb : (backupSettingOf rc).isFalsy = false)
    (hc : FS.lookup fs (issuePath (JVal.str s)) = some c) :
    backupSettingOf none = JVal.bool true ∧
    delete_issue rc now (JVal.str s) fs =
      .ok (true, (delete_issue_steps rc now (JVal.str s) fs).2) ∧
    FS.lookup (delete_issue_steps rc now (JVal.str s) fs).1
      (backupPath (JVal.str s) now) = some c ∧
    FS.lookup (delete_issue_steps rc now (JVal.str s) fs).1
      (issuePath (JVal.str s)) = some c ∧
    FS.lookup (delete_issue_steps rc now (JVal.str s) fs).2
      (backupPath (JVal.str s) now) = some c ∧
    FS.lookup (delete_issue_steps rc now (JVal.str s) fs).2
      (issuePath (JVal.str s)) = none := by
  have hfal : (JVal.str s).isFalsy = false := by
    rw [show (JVal.str s).isFalsy = (s == "") from rfl, beq_eq_false_iff_ne]
    exact hs
  have hst1 : (delete_issue_steps rc now (JVal.str s) fs).1 =
      FS.set fs (backupPath (JVal.str s) now) c := by
    simp [delete_issue_steps, hb, hc]
  have hst2 : (delete_issue_steps rc now (JVal.str s) fs).2 =
      FS.erase (FS.set fs (backupPath (JVal.str s) now) c) (issuePath (JVal.str s)) := by
    simp [delete_issue_steps, hb, hc]
  refine ⟨rfl, by simp [delete_issue, hfal, JVal.isStr, hc], ?_, ?_, ?_, ?_⟩
  · rw [hst1]; exact FS.lookup_set_self _ _ _
  · rw [hst1, FS.lookup_set_ne _ _ _ _ (backupPath_ne_issuePath _ _ _)]
    exact hc
  · rw [hst2, FS.lookup_erase_ne _ _ _ (Ne.symm (backupPath_ne_issuePath _ _ _))]
    exact FS.lookup_set_self _ _ _
  · rw [hst2]; exact FS.lookup_erase_self _ _

/-- Witness for C7 with the configuration key unset (the default-enabled
    case): the backup written by delete deep-equals the record content and
    survives the removal of the record file. -/
theorem C7_witness :
    backupSettingOf none = JVal.bool true ∧
    delete_issue none 7 (JVal.str "aaaaaa") fsD =
      .ok (true, (delete_issue_steps none 7 (JVal.str "aaaaaa") fsD).2) ∧
    FS.lookup (delete_issue_steps none 7 (JVal.str "aaaaaa") fsD).1
      (backupPath (JVal.str "aaaaaa") 7) = some (FileContent.valid (JVal.obj rA)) ∧
    FS.lookup (delete_issue_steps none 7 (JVal.str "aaaaaa") fsD).1
      (issuePath (JVal.str "aaaaaa")) = some (FileContent.valid (JVal.obj rA)) ∧
    FS.lookup (delete_issue_steps none 7 (JVal.str "aaaaaa") fsD).2
      (backupPath (JVal.str "aaaaaa") 7) = some (FileContent.valid (JVal.obj rA)) ∧
    FS.lookup (delete_issue_steps none 7 (JVal.str "aaaaaa") fsD).2
      (issuePath (JVal.str "aaaaaa")) = none :=
  C7_backup_fidelity none 7 "aaaaaa" fsD (FileContent.valid (JVal.obj rA))
    (by decide) (by rfl) rfl

/-- C3 (amended): whenever list() returns, its result is the collected
    readable documents ordered by severity rank ascending (critical, high,
    medium, low, via severityRank) and, within equal ranks, by created_at
    timestamp descending, where a created_at that does not parse is ranked
    as if created at the Unix epoch — hence oldest among records whose
    timestamps do not predate the epoch, but not oldest in general (see the
    counterexample). -/
theorem C3_list_ordering (fs : FS) (l : List Doc) (h : list_issues fs = .ok l) :
    l.Pairwise (fun a b => severityRank a < severityRank b ∨
      (severityRank a = severityRank b ∧ sortTimestamp b ≤ sortTimestamp a)) ∧
    l.Perm (collectIssues fs) := by
  have hrun : list_issues fs =
      (if (collectIssues fs).all severityHashable
       then .ok (List.insertionSort keyLe (collectIssues fs))
       else .error .typeError) := rfl
  rw [hrun] at h
  by_cases hall : (collectIssues fs).all severityHashable
  · rw [if_pos hall] at h
    have hl : l = List.insertionSort keyLe (collectIssues fs) :=
      (Except.ok.injEq _ _ ▸ h).symm
    subst hl
    exact ⟨List.sorted_insertionSort keyLe _, List.perm_insertionSort keyLe _⟩
  · rw [if_neg hall] at h
    cases h

def fsC3 : FS := [("issues/a.json", .valid (.obj rA)), ("issues/b.json", .valid (.obj rB))]

/-- Counterexample to C3 as stated: two records in the same severity
    bucket; rA's created_at parses to the pre-epoch timestamp -3600 s
    (-3600000000 microseconds) while rB's created_at does not parse at all,
    yet list() returns rB first (the newest position) — an unparseable
    timestamp sorts at the epoch, not as oldest. -/
theorem C3_counterexample :
    list_issues fsC3 = .ok [rB, rA] ∧
    severityRank rA = severityRank rB ∧
    (match Doc.get rB "created_at" with
     | some (.str s) => parseIsoTimestamp (String.mk (replaceZ s.toList))
     | _ => some 0) = none ∧
    (match Doc.get rA "created_at" with
     | some (.str s) => parseIsoTimestamp (String.mk (replaceZ s.toList))
     | _ => some 0) = some (-3600000000) ∧
    sortTimestamp rB = 0 ∧ sortTimestamp rA = -3600000000 :=
  ⟨rfl, rfl, rfl, rfl, rfl, rfl⟩

def rC : Doc :=
  [("id", JVal.str "c"), ("severity", JVal.str "high"),
   ("created_at", JVal.str "2026-10-12T03:14:00.318731")]

def rD : Doc :=
  [("id", JVal.str "d"), ("severity", JVal.str "high"),
   ("created_at", JVal.str "2026-10-12T03:14:00.100000")]

def fsW3 : FS :=
  [("issues/a.json", .valid (.obj rA)), ("issues/b.json", .valid (.obj rB)),
   ("issues/d.json", .valid (.obj rD)), ("issues/c.json", .valid (.obj rC))]

/-- Witness for C3 on a store that includes two records in the repository's
    standard created_at format (datetime.now().isoformat() with
    microseconds): they parse to distinct microsecond timestamps and order
    newest-first within their bucket, ahead of the epoch-defaulted and
    pre-epoch records of the lower-urgency bucket. -/
theorem C3_witness :
    list_issues fsW3 = .ok [rC, rD, rB, rA] ∧
    ([rC, rD, rB, rA] : List Doc).Pairwise (fun a b =>
      severityRank a < severityRank b ∨
      (severityRank a = severityRank b ∧ sortTimestamp b ≤ sortTimestamp a)) ∧
    ([rC, rD, rB, rA] : List Doc).Perm (collectIssues fsW3) ∧
    sortTimestamp rC = 1791774840318731 ∧
    sortTimestamp rD = 1791774840100000 := by
  have h := C3_list_ordering fsW3 [rC, rD, rB, rA] rfl
  exact ⟨rfl, h.1, h.2, rfl, rfl⟩

/-- C4 (amended): provided no readable record carries an array or object
    severity (such a value is unhashable, so the Python sort key raises
    TypeError out of list(); see the counterexample), list() raises no
    error and returns exactly the readable documents — every file whose
    read fails is skipped, never fatal to the listing. -/
theorem C4_listing_resilience (fs : FS)
    (h : (collectIssues fs).all severityHashable = true) :
    list_issues fs = .ok (List.insertionSort keyLe (collectIssues fs)) ∧
    (List.insertionSort keyLe (collectIssues fs)).Perm (collectIssues fs) ∧
    (List.insertionSort keyLe (collectIssues fs)).length = (collectIssues fs).length := by
  refine ⟨?_, List.perm_insertionSort keyLe _, (List.perm_insertionSort keyLe _).length_eq⟩
  have hrun : list_issues fs =
      (if (collectIssues fs).all severityHashable
       then .ok (List.insertionSort keyLe (collectIssues fs))
       else .error .typeError) := rfl
  rw [hrun, if_pos h]

def fsBad : FS :=
  [("issues/.x.json", .valid (.obj [("id", JVal.str ".x"), ("severity", JVal.arr [])]))]

/-- Counterexample to C4 as stated: a store holding one well-formed record
    file (a hidden name, which pathlib's glob matches like any other; it
    parses to a map) and no corrupted file at all, on which list() raises
    TypeError instead of returning that one document. -/
theorem C4_counterexample :
    list_issues fsBad = .error .typeError ∧
    read_json_file "issues/.x.json" fsBad =
      .ok [("id", JVal.str ".x"), ("severity", JVal.arr [])] :=
  ⟨rfl, rfl⟩

def rH : Doc := [("id", JVal.str ".h"), ("severity", JVal.str "low")]

def fsW4 : FS :=
  [("issues/a.json", .valid (.obj rA)), ("issues/bad1.json", .corrupt),
   ("issues/b.json", .valid (.obj rB)), ("issues/bad2.json", .valid (.num 7)),
   ("issues/.h.json", .valid (.obj rH))]

/-- Witness for C4: three readable records — one of them a hidden file,
    which the glob matches and the listing includes — among one unparseable
    file and one non-map file; list() succeeds and returns exactly the three
    documents. -/
theorem C4_witness :
    list_issues fsW4 = .ok (List.insertionSort keyLe (collectIssues fsW4)) ∧
    (List.insertionSort keyLe (collectIssues fsW4)).length = 3 ∧
    List.insertionSort keyLe (collectIssues fsW4) = [rB, rA, rH] := by
  have h := C4_listing_resilience fsW4 (by rfl)
  refine ⟨h.1, ?_, rfl⟩
  rw [h.2.2]
  rfl
